import Mathlib

/-!
Shallow embedding of the shape-detector core (binarization, Moore-neighbor contour
tracing with flood-fill suppression, Ramer-Douglas-Peucker simplification, shape
property extraction, classification and confidence scoring), together with theorems
settling the specification claims.

Conventions of the embedding:
* JavaScript numbers that stay integral in the program (pixel data, vertex counts,
  contour lengths, fuel) are modelled as `ℕ`/`ℤ`; coordinates of contour points are
  modelled as `ℚ` (they are produced as integers and only combined by field
  operations); quantities that genuinely involve `Math.sqrt` or `Math.PI`
  (perpendicular distances, circularity, confidence) live in `ℝ`.
* The two `while` loops of the tracer (boundary walk, flood-fill queue) are modelled
  with an explicit fuel parameter; exhausting the fuel yields `none`.  `detectShapes`
  therefore returns `Option DetectionResult`: `some` exactly when every loop of the
  run finishes within the given fuel.
* `Uint8ClampedArray` reads out of range yield `undefined` in JavaScript, which
  compares unequal to `0`; the embedding models the binary map as a `List ℕ` and an
  access guarded by `0 ≤ idx < length` (the linear index `y * width + x` is used
  exactly as in the source, so out-of-grid coordinates whose linear index lands in
  range alias into the grid, as they do in the source).
-/

/-- A 2D point with rational coordinates (source `Point`: `{x, y}`). -/
abbrev Point : Type := ℚ × ℚ

/-- An integer pixel position used by the contour tracer. -/
abbrev PosZ : Type := ℤ × ℤ

/-- The closed set of shape categories of `DetectedShape["type"]`. -/
inductive ShapeType where
  | circle
  | triangle
  | rectangle
  | pentagon
  | star
  deriving DecidableEq, Repr

/-- Bounding box record `{x, y, width, height}`. -/
structure Bbox where
  x : ℚ
  y : ℚ
  width : ℚ
  height : ℚ
  deriving DecidableEq, Repr

/-- Result record of `calculateShapeProperties`. -/
structure ShapeProps where
  area : ℚ
  boundingBox : Bbox
  center : Point
  deriving DecidableEq, Repr

/-- Source `DetectedShape` record. -/
structure DetectedShape where
  type : ShapeType
  confidence : ℝ
  boundingBox : Bbox
  center : Point
  area : ℚ

/-- Source `DetectionResult` record.  Wall-clock `processingTime` is not modelled
and is always `0` in the embedding. -/
structure DetectionResult where
  shapes : List DetectedShape
  processingTime : ℝ
  imageWidth : ℕ
  imageHeight : ℕ

/-- Input raster: `ImageData`-like record; `data` is the flat RGBA byte list, of
which the source reads only every fourth entry (the red channel). -/
structure Raster where
  width : ℕ
  height : ℕ
  data : List ℕ

/-! ## Geometry utilities (source `geometry-utils.ts`) -/

/-- The square of the point-to-segment distance computed by the source
`perpendicularDistance`: the same arithmetic (dot product, squared segment length,
clamped projection parameter, degenerate-segment fallback), with the final
`Math.sqrt` split off into `perpendicularDistance` below. -/
def perpDistSq (p l1 l2 : Point) : ℚ :=
  let A := p.1 - l1.1
  let B := p.2 - l1.2
  let C := l2.1 - l1.1
  let D := l2.2 - l1.2
  let dot := A * C + B * D
  let lenSq := C * C + D * D
  if lenSq = 0 then A * A + B * B
  else
    let param := dot / lenSq
    let q : Point :=
      if param < 0 then l1
      else if 1 < param then l2
      else (l1.1 + param * C, l1.2 + param * D)
    (p.1 - q.1) * (p.1 - q.1) + (p.2 - q.2) * (p.2 - q.2)

/-- Source `perpendicularDistance`: point-to-segment distance (both branches of the
source end in `Math.sqrt` of a sum of squares, collected in `perpDistSq`). -/
noncomputable def perpendicularDistance (p l1 l2 : Point) : ℝ :=
  Real.sqrt (perpDistSq p l1 l2)

/-- Summand accumulator of the shoelace loop of `calculateShapeProperties`:
`go first l` sums `x_i * y_{i+1} - x_{i+1} * y_i` over consecutive points of `l`,
wrapping from the final point back to `first` (the source's `j = (i+1) % n`). -/
def shoelaceGo (first : Point) : List Point → ℚ
  | [] => 0
  | [q] => q.1 * first.2 - first.1 * q.2
  | q :: r :: t => (q.1 * r.2 - r.1 * q.2) + shoelaceGo first (r :: t)

/-- The signed doubled area sum of the source's shoelace loop. -/
def shoelace : List Point → ℚ
  | [] => 0
  | p :: rest => shoelaceGo p (p :: rest)

/-- Source `calculateShapeProperties`: bounding box from coordinate minima/maxima
(inclusive-pixel `max - min + 1` extents), bounding-box center, and absolute
shoelace area.  The `±Infinity` fold of the source is modelled as a fold over the
nonempty list seeded with the head; the empty contour returns the source's explicit
zero record. -/
def calculateShapeProperties (contour : List Point) : ShapeProps :=
  match contour with
  | [] => ⟨0, ⟨0, 0, 0, 0⟩, (0, 0)⟩
  | p :: rest =>
    let minX := rest.foldl (fun a q => min a q.1) p.1
    let minY := rest.foldl (fun a q => min a q.2) p.2
    let maxX := rest.foldl (fun a q => max a q.1) p.1
    let maxY := rest.foldl (fun a q => max a q.2) p.2
    let boundingBox : Bbox := ⟨minX, minY, maxX - minX + 1, maxY - minY + 1⟩
    let center : Point := (minX + boundingBox.width / 2, minY + boundingBox.height / 2)
    let area := |shoelace contour| / 2
    ⟨area, boundingBox, center⟩

/-! ## Polyline simplification

Modelled from the spec: the file `contour-simplification.ts` exporting
`ramerDouglasPeucker` is not part of the provided sources (only its caller is), so
the recursive reduction is modelled from spec section 4.3: keep first and last
point, find the interior point farthest from the chord, split there when the
maximum distance exceeds epsilon (concatenating the halves and dropping the
duplicated junction point), otherwise collapse to the two endpoints.

The definition is generic in the ordered codomain of the distance function so that
the real-valued simplifier of the spec and its rational-squared reflection (used to
evaluate it on concrete inputs) share one recursion. -/

/-- First-argmax scan: walks the remaining points, keeping the first point whose
distance strictly exceeds the best so far, together with its index. -/
def farthestBy {α : Type} [LinearOrder α] (dist : Point → α) :
    List Point → ℕ → α × ℕ → α × ℕ
  | [], _, best => best
  | p :: rest, i, best =>
    if best.1 < dist p then farthestBy dist rest (i + 1) (dist p, i)
    else farthestBy dist rest (i + 1) best

/-- The index returned by `farthestBy` is the seed index or lies among the scanned
indices. -/
theorem farthestBy_snd {α : Type} [LinearOrder α] (dist : Point → α) :
    ∀ (ps : List Point) (i : ℕ) (best : α × ℕ),
      (farthestBy dist ps i best).2 = best.2 ∨
        (i ≤ (farthestBy dist ps i best).2 ∧ (farthestBy dist ps i best).2 < i + ps.length) := by
  intro ps
  induction ps with
  | nil => intro i best; left; rfl
  | cons p rest ih =>
    intro i best
    simp only [farthestBy]
    by_cases h : best.1 < dist p
    · simp only [if_pos h]
      rcases ih (i + 1) (dist p, i) with h1 | h1
      · right
        rw [h1]
        simp
      · right
        constructor
        · omega
        · simpa [Nat.add_assoc, Nat.add_comm 1 rest.length] using h1.2
    · simp only [if_neg h]
      rcases ih (i + 1) best with h1 | h1
      · left; exact h1
      · right
        constructor
        · omega
        · have := h1.2
          simp only [List.length_cons]
          omega

/-- Generic Ramer-Douglas-Peucker recursion over an ordered distance codomain.
Modelled from the spec (section 4.3): fewer than 3 points are returned unchanged;
otherwise the interior point farthest from the chord (first scanned point seeding
the argmax) splits the polyline when its distance exceeds `eps`, and the two halves
are simplified recursively and concatenated with the junction point deduplicated;
otherwise the segment collapses to its endpoints. -/
def rdpBy {α : Type} [LinearOrder α] (dist : Point → Point → Point → α) (eps : α)
    (pts : List Point) : List Point :=
  if h3 : pts.length < 3 then pts
  else
    match hin : (pts.drop 1).dropLast with
    | [] => [pts.headD (0, 0), pts.getLastD (0, 0)]
    | q :: qs =>
      let best := farthestBy (fun p => dist p (pts.headD (0, 0)) (pts.getLastD (0, 0))) qs 2
        (dist q (pts.headD (0, 0)) (pts.getLastD (0, 0)), 1)
      if eps < best.1 then
        (rdpBy dist eps (pts.take (best.2 + 1))).dropLast ++ rdpBy dist eps (pts.drop best.2)
      else [pts.headD (0, 0), pts.getLastD (0, 0)]
termination_by pts.length
decreasing_by
  · have hb := farthestBy_snd (fun p => dist p (pts.headD (0, 0)) (pts.getLastD (0, 0))) qs 2
      (dist q (pts.headD (0, 0)) (pts.getLastD (0, 0)), 1)
    have hlen : qs.length + 1 = (pts.drop 1).dropLast.length := by rw [hin]; simp
    have hlen2 : (pts.drop 1).dropLast.length = pts.length - 1 - 1 := by simp
    simp only [List.length_take]
    rcases hb with hb | hb <;> omega
  · have hb := farthestBy_snd (fun p => dist p (pts.headD (0, 0)) (pts.getLastD (0, 0))) qs 2
      (dist q (pts.headD (0, 0)) (pts.getLastD (0, 0)), 1)
    have hlen : qs.length + 1 = (pts.drop 1).dropLast.length := by rw [hin]; simp
    have hlen2 : (pts.drop 1).dropLast.length = pts.length - 1 - 1 := by simp
    simp only [List.length_drop]
    rcases hb with hb | hb <;> omega

/-- Spec `ramerDouglasPeucker(points, epsilon)` with the real-valued perpendicular
distance of the source geometry utilities. -/
noncomputable def ramerDouglasPeucker (points : List Point) (epsilon : ℝ) : List Point :=
  rdpBy (fun p a b => perpendicularDistance p a b) epsilon points

/-- Computable reflection of `ramerDouglasPeucker`: identical recursion driven by
squared distances and squared epsilon (see `ramerDouglasPeucker_eq_rdpRat`). -/
def rdpRat (epsSq : ℚ) (points : List Point) : List Point :=
  rdpBy (fun p a b => perpDistSq p a b) epsSq points

/-! ## Shape classifier (source `shape-classifier.ts`) -/

/-- Source `classifyShape(vertices, circularity)`: vertex-count rules first
(3/4/5), then the 10-12 band split by `circularity < 0.7`, the 6-9 band split by
`circularity > 0.75` and `vertices <= 7`, then `vertices > 12`, then the
`circularity > 0.8` fallback, else `null`. -/
noncomputable def classifyShape (vertices : ℕ) (circularity : ℝ) : Option ShapeType :=
  if vertices = 3 then some .triangle
  else if vertices = 4 then some .rectangle
  else if vertices = 5 then some .pentagon
  else if 10 ≤ vertices ∧ vertices ≤ 12 then
    if circularity < 0.7 then some .star else some .circle
  else if 6 ≤ vertices ∧ vertices ≤ 9 then
    if 0.75 < circularity then some .circle
    else if vertices ≤ 7 then some .pentagon
    else some .star
  else if 12 < vertices then some .circle
  else if 0.8 < circularity then some .circle
  else none

/-! ## Confidence scorer (source `shape-classifier.ts`, confidence section) -/

/-- Source `calculateCircleConfidence`. -/
noncomputable def calculateCircleConfidence (circularity : ℝ) (normalizedAspect : ℚ)
    (contourLength : ℕ) : ℝ :=
  let base : ℝ :=
    if 0.85 < circularity then 0.95
    else if 0.75 < circularity then 0.85
    else if 0.65 < circularity then 0.7
    else 0.5
  let afterAspect := base - (1 - (normalizedAspect : ℝ)) * 0.2
  if contourLength < 50 then afterAspect * 0.8 else afterAspect

/-- Source `calculateTriangleConfidence`. -/
noncomputable def calculateTriangleConfidence (vertices : ℕ) (circularity : ℝ)
    (contourLength : ℕ) : ℝ :=
  let base : ℝ := if vertices ≠ 3 then 0.5 else 0.9
  let adjusted :=
    if circularity < 0.5 then min base 0.95
    else if 0.7 < circularity then base * 0.7
    else base
  if contourLength < 30 then adjusted * 0.8 else adjusted

/-- Source `calculateRectangleConfidence` (the aspect argument is accepted and
unused, as in the source). -/
noncomputable def calculateRectangleConfidence (vertices : ℕ) (_normalizedAspect : ℚ)
    (circularity : ℝ) (contourLength : ℕ) : ℝ :=
  let base : ℝ := if vertices ≠ 4 then 0.5 else 0.9
  let adjusted :=
    if circularity < 0.7 then min base 0.95
    else if 0.8 < circularity then base * 0.6
    else base
  if contourLength < 40 then adjusted * 0.8 else adjusted

/-- Source `calculatePentagonConfidence`. -/
noncomputable def calculatePentagonConfidence (vertices : ℕ) (circularity : ℝ)
    (contourLength : ℕ) : ℝ :=
  let base : ℝ := if vertices ≠ 5 then 0.5 else 0.85
  let adjusted :=
    if 0.6 ≤ circularity ∧ circularity ≤ 0.8 then min base 0.9
    else if 0.8 < circularity then base * 0.7
    else if circularity < 0.4 then base * 0.7
    else base
  if contourLength < 50 then adjusted * 0.8 else adjusted

/-- Source `calculateStarConfidence`. -/
noncomputable def calculateStarConfidence (vertices : ℕ) (circularity : ℝ)
    (contourLength : ℕ) : ℝ :=
  let base : ℝ :=
    if 10 ≤ vertices ∧ vertices ≤ 12 then 0.85
    else if 8 ≤ vertices ∧ vertices ≤ 14 then 0.75
    else 0.6
  let adjusted :=
    if circularity < 0.5 then min (base + 0.1) 0.95
    else if 0.65 < circularity then base * 0.6
    else base
  if contourLength < 60 then adjusted * 0.8 else adjusted

/-- Source `calculateConfidence(shapeType, vertices, circularity, contourLength,
boundingBox)`: aspect-ratio normalization, dispatch on the shape type, and the
final clamp `Math.max(0, Math.min(1, confidence))`. -/
noncomputable def calculateConfidence (shapeType : ShapeType) (vertices : ℕ)
    (circularity : ℝ) (contourLength : ℕ) (boundingBox : Bbox) : ℝ :=
  let aspect := boundingBox.width / boundingBox.height
  let normalizedAspect := min aspect (1 / aspect)
  let confidence : ℝ :=
    match shapeType with
    | .circle => calculateCircleConfidence circularity normalizedAspect contourLength
    | .triangle => calculateTriangleConfidence vertices circularity contourLength
    | .rectangle => calculateRectangleConfidence vertices normalizedAspect circularity contourLength
    | .pentagon => calculatePentagonConfidence vertices circularity contourLength
    | .star => calculateStarConfidence vertices circularity contourLength
  max 0 (min 1 confidence)

/-! ## Binarization and contour tracing (source `detectShapes`) -/

/-- The binary map built at the top of `detectShapes`: a `width*height` array,
entry `j` set to `0` (foreground, "black") when the red byte `data[4*j]` is
strictly below the threshold `127`, to `1` otherwise; entries whose source read
would fall outside `data` keep the `Uint8ClampedArray` default `0`. -/
def binarize (img : Raster) : List ℕ :=
  (List.range (img.width * img.height)).map fun j =>
    if 4 * j < img.data.length then
      if img.data.getD (4 * j) 0 < 127 then 0 else 1
    else 0

/-- The fixed clockwise 8-neighbor ring of the tracer:
N, NE, E, SE, S, SW, W, NW. -/
def neighborsRing (c : PosZ) : List PosZ :=
  [(c.1, c.2 - 1), (c.1 + 1, c.2 - 1), (c.1 + 1, c.2), (c.1 + 1, c.2 + 1),
   (c.1, c.2 + 1), (c.1 - 1, c.2 + 1), (c.1 - 1, c.2), (c.1 - 1, c.2 - 1)]

/-- The tracer's foreground test `binaryMap[p.y * width + p.x] === 0`: the linear
index is computed from possibly off-grid coordinates exactly as in the source, and
an index outside the array compares unequal to `0` (JavaScript `undefined`). -/
def fgAt (m : List ℕ) (w : ℤ) (p : PosZ) : Bool :=
  let idx := p.2 * w + p.1
  if 0 ≤ idx ∧ idx < (m.length : ℤ) then m.getD idx.toNat 1 == 0 else false

/-- The tracer's inner ring scan: starting at ring position `i`, try up to `k`
positions clockwise (wrapping modulo 8) and return the first foreground neighbor. -/
def scanRing (m : List ℕ) (w : ℤ) (ns : List PosZ) : ℕ → ℕ → Option PosZ
  | _, 0 => none
  | i, k + 1 =>
    let t := ns.getD i ((0 : ℤ), (0 : ℤ))
    if fgAt m w t then some t else scanRing m w ns ((i + 1) % 8) k

/-- One step of the Moore-neighbor walk: locate the came-from pixel in the ring
(`findIndex`, `-1` when absent as in the source) and scan clockwise from the next
ring position for the first foreground neighbor. -/
def findNext (m : List ℕ) (w : ℤ) (cur frm : PosZ) : Option PosZ :=
  let ns := neighborsRing cur
  let fromIndex : ℤ :=
    match ns.findIdx? (fun q => q == frm) with
    | some i => (i : ℤ)
    | none => -1
  scanRing m w ns (((fromIndex + 1) % 8).toNat) 8

/-- The tracer's `do ... while` boundary walk with fuel: stop with the collected
contour when no foreground neighbor exists or when the walk returns to `start`
(the source appends every visited pixel except `start`); `none` when the fuel is
exhausted, modelling a loop that has not terminated within `fuel` iterations. -/
def traceLoop (m : List ℕ) (w : ℤ) (start : PosZ) :
    ℕ → PosZ → PosZ → List PosZ → Option (List PosZ)
  | 0, _, _, _ => none
  | fuel + 1, cur, frm, acc =>
    match findNext m w cur frm with
    | none => some acc.reverse
    | some nxt =>
      if nxt = start then some acc.reverse
      else traceLoop m w start fuel nxt cur (nxt :: acc)

/-- The 4-neighbor list (N, E, S, W) of the flood fill. -/
def floodNeighbors (p : PosZ) : List PosZ :=
  [(p.1, p.2 - 1), (p.1 + 1, p.2), (p.1, p.2 + 1), (p.1 - 1, p.2)]

/-- The flood-fill `while (queue.length > 0)` loop with fuel: pop the front pixel,
mark-and-enqueue each in-bounds foreground 4-neighbor (bounds checked against the
image extents exactly as in the source), and continue; `none` on fuel exhaustion. -/
def floodFill (w h : ℕ) : ℕ → List PosZ → List ℕ → Option (List ℕ)
  | 0, _, _ => none
  | _ + 1, [], m => some m
  | fuel + 1, p :: rest, m =>
    let step := fun (st : List ℕ × List PosZ) (n : PosZ) =>
      let nIdx := n.2 * (w : ℤ) + n.1
      if 0 ≤ n.1 ∧ n.1 < (w : ℤ) ∧ 0 ≤ n.2 ∧ n.2 < (h : ℤ) ∧ st.1.getD nIdx.toNat 1 = 0 then
        (st.1.set nIdx.toNat 1, st.2 ++ [n])
      else st
    let res := (floodNeighbors p).foldl step (m, rest)
    floodFill w h fuel res.2 res.1

/-- The raster scan of the tracer over linear indices `0, 1, ...` (the source's
row-major `for y / for x` double loop; `x = i % width`, `y = i / width`): on each
still-foreground cell, run the boundary walk seeded with the came-from pixel
`(x-1, y)`, then erase the component by flood fill from the start pixel (marking
the start before the queue loop, as in the source), and collect the contour. -/
def scanGo (img : Raster) (F : ℕ) : ℕ → ℕ → List ℕ → List (List PosZ) →
    Option (List (List PosZ))
  | _, 0, _, acc => some acc.reverse
  | i, rem + 1, m, acc =>
    let x : ℤ := (i % img.width : ℕ)
    let y : ℤ := (i / img.width : ℕ)
    if m.getD i 1 = 0 then
      match traceLoop m (img.width : ℤ) (x, y) F (x, y) (x - 1, y) [(x, y)] with
      | none => none
      | some contour =>
        match floodFill img.width img.height F [(x, y)] (m.set i 1) with
        | none => none
        | some m2 => scanGo img F (i + 1) rem m2 (contour :: acc)
    else scanGo img F (i + 1) rem m acc

/-- The contour-collection phase of `detectShapes` (binarization plus the full
raster scan), producing all traced contours in discovery order. -/
def collectContours (F : ℕ) (img : Raster) : Option (List (List PosZ)) :=
  scanGo img F 0 (img.width * img.height) (binarize img) []

/-! ## Per-contour processing and assembly (source `detectShapes`, second loop) -/

/-- Integer contour points cast to rational `Point`s. -/
def toQ (c : List PosZ) : List Point :=
  c.map fun p => ((p.1 : ℚ), (p.2 : ℚ))

/-- Point-to-point distance used by the closed-contour deduplication check of
`detectShapes` (`Math.sqrt` of the coordinate difference squares). -/
noncomputable def ptDist (a b : Point) : ℝ :=
  Real.sqrt (((a.1 - b.1) * (a.1 - b.1) + (a.2 - b.2) * (a.2 - b.2) : ℚ))

/-- The de-duplicated vertex count of `detectShapes`: the simplified contour's
length (epsilon `0.02 *` raw point count), minus one when the contour has more than
one point and its first and last point are closer than `2`. -/
noncomputable def dedupVertices (c : List PosZ) : ℕ :=
  let simplified := ramerDouglasPeucker (toQ c) ((c.length : ℝ) * 0.02)
  let n := simplified.length
  if 1 < n then
    if ptDist (simplified.headD (0, 0)) (simplified.getLastD (0, 0)) < 2 then n - 1 else n
  else n

/-- The circularity `4π·area / perimeter²` computed by `detectShapes`, with the raw
contour point count as perimeter proxy. -/
noncomputable def circularityOf (c : List PosZ) : ℝ :=
  4 * Real.pi * ((calculateShapeProperties (toQ c)).area : ℝ) /
    ((c.length : ℝ) * (c.length : ℝ))

/-- The body of the second loop of `detectShapes` for one traced contour: skip
contours of fewer than 10 points, classify by de-duplicated vertex count and
circularity, and on success build the `DetectedShape` with constant confidence
`1.0` and the raw-contour properties. -/
noncomputable def processContour (c : List PosZ) : Option DetectedShape :=
  if c.length < 10 then none
  else
    match classifyShape (dedupVertices c) (circularityOf c) with
    | none => none
    | some t =>
      let props := calculateShapeProperties (toQ c)
      some { type := t, confidence := 1, boundingBox := props.boundingBox,
             center := props.center, area := props.area }

/-- Source `detectShapes(imageData)`: binarize, trace all contours, process each
contour, and assemble the `DetectionResult`.  The result is `some` exactly when
every loop of the run terminates within fuel `F`. -/
noncomputable def detectShapes (F : ℕ) (img : Raster) : Option DetectionResult :=
  (collectContours F img).map fun cs =>
    { shapes := cs.filterMap processContour, processingTime := 0,
      imageWidth := img.width, imageHeight := img.height }

/-! ## Concrete inputs used by the claim theorems -/

/-- Red channel of pixel `j` of the 12-by-12 test raster: black exactly on the
filled 6-by-6 square spanning pixels (3,3) to (8,8). -/
def rr12 (j : ℕ) : ℕ :=
  if 3 ≤ j % 12 ∧ j % 12 ≤ 8 ∧ 3 ≤ j / 12 ∧ j / 12 ≤ 8 then 0 else 255

/-- A 12-by-12 raster (RGBA byte list) whose foreground is the filled 6-by-6
square spanning pixels (3,3) to (8,8). -/
def img12 : Raster :=
  ⟨12, 12, (List.range 144).flatMap fun j => [rr12 j, rr12 j, rr12 j, 255]⟩

/-- The boundary contour of the square of `img12`, exactly as the Moore tracer
discovers it (raster-scan start at the top-left corner, clockwise walk). -/
def contour12 : List PosZ :=
  [(3,3),(4,3),(5,3),(6,3),(7,3),(8,3),(8,4),(8,5),(8,6),(8,7),
   (8,8),(7,8),(6,8),(5,8),(4,8),(3,8),(3,7),(3,6),(3,5),(3,4)]

/-- `contour12` with rational coordinates, as handed to the geometry utilities. -/
def pts12 : List Point :=
  [(3,3),(4,3),(5,3),(6,3),(7,3),(8,3),(8,4),(8,5),(8,6),(8,7),
   (8,8),(7,8),(6,8),(5,8),(4,8),(3,8),(3,7),(3,6),(3,5),(3,4)]

/-- The single `DetectedShape` produced by `detectShapes` on `img12`. -/
noncomputable def shape12 : DetectedShape :=
  ⟨ShapeType.rectangle, 1, ⟨3, 3, 6, 6⟩, (6, 6), 25⟩

/-- A 10-by-10 raster whose pixels are all foreground (red channel 0). -/
def img10 : Raster := ⟨10, 10, List.replicate 400 0⟩

/-- The all-foreground binary map of `img10`. -/
def m10 : List ℕ := List.replicate 100 0

/-- Translation by `m` copies of the aliasing period `(10, -1)` of a 10-wide map:
the linear index `y * 10 + x` is invariant under it. -/
def shiftP (m : ℕ) (p : PosZ) : PosZ := (p.1 + 10 * m, p.2 - m)

/-- `shiftP` applied to both components of a tracer state `(current, cameFrom)`. -/
def shiftSt (m : ℕ) (s : PosZ × PosZ) : PosZ × PosZ := (shiftP m s.1, shiftP m s.2)

/-- The first eleven states of the boundary walk started at `(0, 0)` on the
all-foreground 10-wide map; every later state of the walk is one of these shifted
by a multiple of the aliasing period (see `goodState_step`). -/
def baseStates : List (PosZ × PosZ) :=
  [(((0 : ℤ), (0 : ℤ)), ((-1 : ℤ), (0 : ℤ))),
   (((1 : ℤ), (0 : ℤ)), ((0 : ℤ), (0 : ℤ))),
   (((2 : ℤ), (0 : ℤ)), ((1 : ℤ), (0 : ℤ))),
   (((3 : ℤ), (0 : ℤ)), ((2 : ℤ), (0 : ℤ))),
   (((4 : ℤ), (0 : ℤ)), ((3 : ℤ), (0 : ℤ))),
   (((5 : ℤ), (0 : ℤ)), ((4 : ℤ), (0 : ℤ))),
   (((6 : ℤ), (0 : ℤ)), ((5 : ℤ), (0 : ℤ))),
   (((7 : ℤ), (0 : ℤ)), ((6 : ℤ), (0 : ℤ))),
   (((8 : ℤ), (0 : ℤ)), ((7 : ℤ), (0 : ℤ))),
   (((9 : ℤ), (0 : ℤ)), ((8 : ℤ), (0 : ℤ))),
   (((10 : ℤ), (-1 : ℤ)), ((9 : ℤ), (0 : ℤ)))]

/-- A state of the walk reachable on the all-foreground map: a base state shifted
by some multiple of the aliasing period `(10, -1)`. -/
def goodState (s : PosZ × PosZ) : Prop :=
  ∃ m : ℕ, ∃ b ∈ baseStates, s = shiftSt m b

/-- Decidable check of the walk step on every base state: the step succeeds, the
next pixel never equals the start `(0, 0)` even after shifting, and the successor
state is again a base state, possibly shifted once. -/
def baseOK : Bool :=
  baseStates.all fun b =>
    match findNext m10 10 b.1 b.2 with
    | none => false
    | some n =>
      ((decide (0 < n.1) && decide (n.2 = 0)) || decide (n.2 < 0)) &&
        (decide ((n, b.1) ∈ baseStates) ||
          baseStates.any fun b3 => decide ((n, b.1) = shiftSt 1 b3))

/-! ## Reflection of the real-valued simplifier into rational arithmetic

`perpendicularDistance` is the square root of the rational `perpDistSq`, and the
square root is strictly monotone on nonnegative reals, so the recursion of
`ramerDouglasPeucker` follows exactly the same branches as the rational recursion
driven by squared distances compared against the squared epsilon. -/

theorem perpDistSq_nonneg (p l1 l2 : Point) : 0 ≤ perpDistSq p l1 l2 := by
  unfold perpDistSq
  dsimp only
  split_ifs <;> exact add_nonneg (mul_self_nonneg _) (mul_self_nonneg _)

theorem farthestBy_sqrt (g : Point → ℚ) (hg : ∀ p, 0 ≤ g p) :
    ∀ (ps : List Point) (i : ℕ) (b : ℚ) (k : ℕ), 0 ≤ b →
      farthestBy (fun p => Real.sqrt (g p)) ps i (Real.sqrt b, k)
        = (Real.sqrt ((farthestBy g ps i (b, k)).1), (farthestBy g ps i (b, k)).2) := by
  intro ps
  induction ps with
  | nil => intro i b k _; rfl
  | cons p rest ih =>
    intro i b k hb
    simp only [farthestBy]
    have hcmp : (Real.sqrt b < Real.sqrt (g p)) ↔ ((b : ℚ) < g p) := by
      rw [show ((Real.sqrt (b : ℚ) < Real.sqrt (g p)) ↔ ((b : ℚ) : ℝ) < ((g p : ℚ) : ℝ)) from
        Real.sqrt_lt_sqrt_iff (by exact_mod_cast hb)]
      exact_mod_cast Iff.rfl
    by_cases h : (b : ℚ) < g p
    · rw [if_pos (hcmp.mpr h), if_pos h]
      exact ih (i + 1) (g p) i (hg p)
    · rw [if_neg (fun hc => h (hcmp.mp hc)), if_neg h]
      exact ih (i + 1) b k hb

/-- Unfolding of `rdpBy` below the 3-point threshold. -/
theorem rdpBy_small {α : Type} [LinearOrder α] (dist : Point → Point → Point → α) (eps : α)
    (pts : List Point) (h3 : pts.length < 3) : rdpBy dist eps pts = pts := by
  rw [rdpBy]
  simp [h3]

/-- Unfolding of `rdpBy` at 3 or more points, phrased against an explicit
decomposition of the interior point list. -/
theorem rdpBy_eq_of {α : Type} [LinearOrder α] (dist : Point → Point → Point → α) (eps : α)
    (pts : List Point) (h3 : ¬ pts.length < 3) (q : Point) (qs : List Point)
    (hin : (pts.drop 1).dropLast = q :: qs) :
    rdpBy dist eps pts =
      (if eps < (farthestBy (fun p => dist p (pts.headD (0, 0)) (pts.getLastD (0, 0))) qs 2
          (dist q (pts.headD (0, 0)) (pts.getLastD (0, 0)), 1)).1 then
        (rdpBy dist eps (pts.take
            ((farthestBy (fun p => dist p (pts.headD (0, 0)) (pts.getLastD (0, 0))) qs 2
              (dist q (pts.headD (0, 0)) (pts.getLastD (0, 0)), 1)).2 + 1))).dropLast ++
          rdpBy dist eps (pts.drop
            ((farthestBy (fun p => dist p (pts.headD (0, 0)) (pts.getLastD (0, 0))) qs 2
              (dist q (pts.headD (0, 0)) (pts.getLastD (0, 0)), 1)).2))
      else [pts.headD (0, 0), pts.getLastD (0, 0)]) := by
  conv_lhs => rw [rdpBy]
  rw [dif_neg h3]
  split
  · rename_i heq
    rw [hin] at heq
    exact absurd heq (List.cons_ne_nil q qs)
  · rename_i q' qs' heq
    rw [hin] at heq
    obtain ⟨rfl, rfl⟩ : q' = q ∧ qs' = qs := by
      constructor <;> injection heq <;> simp_all
    rfl

/-- The argmax scan over real perpendicular distances agrees, index and all, with
the scan over squared rational distances. -/
theorem farthestPD_eq (l1 l2 q : Point) (qs : List Point) :
    farthestBy (fun p => perpendicularDistance p l1 l2) qs 2 (perpendicularDistance q l1 l2, 1)
      = (Real.sqrt ((farthestBy (fun p => perpDistSq p l1 l2) qs 2
            (perpDistSq q l1 l2, 1)).1 : ℚ),
         (farthestBy (fun p => perpDistSq p l1 l2) qs 2 (perpDistSq q l1 l2, 1)).2) := by
  simpa only [perpendicularDistance] using
    farthestBy_sqrt (fun p => perpDistSq p l1 l2) (fun p => perpDistSq_nonneg p l1 l2) qs 2
      (perpDistSq q l1 l2) 1 (perpDistSq_nonneg q l1 l2)

/-- The real-valued simplifier of the spec agrees with the computable rational
recursion when the (nonnegative) epsilon is squared along with the distances. -/
theorem ramerDouglasPeucker_eq_rdpRat (e : ℚ) (he : 0 ≤ e) (pts : List Point) :
    ramerDouglasPeucker pts ((e : ℚ) : ℝ) = rdpRat (e * e) pts := by
  unfold ramerDouglasPeucker rdpRat
  generalize hn : pts.length = n
  induction n using Nat.strong_induction_on generalizing pts with
  | _ n ih =>
  by_cases h3 : pts.length < 3
  · rw [rdpBy_small _ _ _ h3, rdpBy_small _ _ _ h3]
  · cases hde : (pts.drop 1).dropLast with
    | nil =>
      exfalso
      have hl : (pts.drop 1).dropLast.length = pts.length - 1 - 1 := by simp
      rw [hde] at hl
      simp at hl
      omega
    | cons q qs =>
      rw [rdpBy_eq_of _ _ _ h3 q qs hde, rdpBy_eq_of _ _ _ h3 q qs hde]
      have hqslen : qs.length + 1 = pts.length - 1 - 1 := by
        have hl : (pts.drop 1).dropLast.length = pts.length - 1 - 1 := by simp
        rw [hde] at hl
        simpa using hl
      simp only [farthestPD_eq]
      have hidx := farthestBy_snd (fun p => perpDistSq p (pts.headD (0, 0)) (pts.getLastD (0, 0)))
        qs 2 (perpDistSq q (pts.headD (0, 0)) (pts.getLastD (0, 0)), 1)
      set bq := farthestBy (fun p => perpDistSq p (pts.headD (0, 0)) (pts.getLastD (0, 0))) qs 2
        (perpDistSq q (pts.headD (0, 0)) (pts.getLastD (0, 0)), 1) with hbq
      have hcond : (((e : ℚ) : ℝ) < Real.sqrt (bq.1 : ℚ)) ↔ (e * e < bq.1) := by
        rw [Real.lt_sqrt (by exact_mod_cast he)]
        rw [show (((e : ℚ) : ℝ)) ^ 2 = (((e * e : ℚ) : ℚ) : ℝ) by push_cast; ring]
        exact Rat.cast_lt
      by_cases hc : e * e < bq.1
      · rw [if_pos (hcond.mpr hc), if_pos hc]
        have hidx1 : 1 ≤ bq.2 ∧ bq.2 ≤ pts.length - 2 := by
          rcases hidx with hi | hi
          · rw [hi]
            omega
          · omega
        rw [ih (pts.take (bq.2 + 1)).length (by simp [List.length_take]; omega) _ rfl,
          ih (pts.drop bq.2).length (by simp [List.length_drop]; omega) _ rfl]
      · rw [if_neg (fun hcc => hc (hcond.mp hcc)), if_neg hc]

/-- Unfolding of the rational reflection above the 3-point threshold; the recursive
occurrences stay folded as `rdpRat`. -/
theorem rdpRat_eq_of (epsSq : ℚ) (pts : List Point) (h3 : ¬ pts.length < 3)
    (q : Point) (qs : List Point) (hin : (pts.drop 1).dropLast = q :: qs) :
    rdpRat epsSq pts =
      (if epsSq < (farthestBy (fun p => perpDistSq p (pts.headD (0, 0)) (pts.getLastD (0, 0)))
          qs 2 (perpDistSq q (pts.headD (0, 0)) (pts.getLastD (0, 0)), 1)).1 then
        (rdpRat epsSq (pts.take
            ((farthestBy (fun p => perpDistSq p (pts.headD (0, 0)) (pts.getLastD (0, 0))) qs 2
              (perpDistSq q (pts.headD (0, 0)) (pts.getLastD (0, 0)), 1)).2 + 1))).dropLast ++
          rdpRat epsSq (pts.drop
            ((farthestBy (fun p => perpDistSq p (pts.headD (0, 0)) (pts.getLastD (0, 0))) qs 2
              (perpDistSq q (pts.headD (0, 0)) (pts.getLastD (0, 0)), 1)).2))
      else [pts.headD (0, 0), pts.getLastD (0, 0)]) := by
  unfold rdpRat
  exact rdpBy_eq_of (fun p a b => perpDistSq p a b) epsSq pts h3 q qs hin

theorem toQ12 : toQ contour12 = pts12 := by norm_num [toQ, contour12, pts12]

set_option maxRecDepth 10000 in
theorem collect12 : collectContours 300 img12 = some [contour12] := by decide

set_option maxHeartbeats 1000000 in
theorem rdpLL : rdpRat ((4 : ℚ)/25)
    [(3,3),(4,3),(5,3),(6,3),(7,3),(8,3)] = [(3,3),(8,3)] := by
  rw [rdpRat_eq_of ((4 : ℚ)/25) [(3,3),(4,3),(5,3),(6,3),(7,3),(8,3)]
    (by norm_num) (4,3) [(5,3),(6,3),(7,3)] rfl]
  norm_num [farthestBy, perpDistSq]

set_option maxHeartbeats 1000000 in
theorem rdpLR : rdpRat ((4 : ℚ)/25)
    [(8,3),(8,4),(8,5),(8,6),(8,7),(8,8)] = [(8,3),(8,8)] := by
  rw [rdpRat_eq_of ((4 : ℚ)/25) [(8,3),(8,4),(8,5),(8,6),(8,7),(8,8)]
    (by norm_num) (8,4) [(8,5),(8,6),(8,7)] rfl]
  norm_num [farthestBy, perpDistSq]

set_option maxHeartbeats 1000000 in
theorem rdpL : rdpRat ((4 : ℚ)/25)
    [(3,3),(4,3),(5,3),(6,3),(7,3),(8,3),(8,4),(8,5),(8,6),(8,7),(8,8)]
    = [(3,3),(8,3),(8,8)] := by
  rw [rdpRat_eq_of ((4 : ℚ)/25)
    [(3,3),(4,3),(5,3),(6,3),(7,3),(8,3),(8,4),(8,5),(8,6),(8,7),(8,8)]
    (by norm_num) (4,3) [(5,3),(6,3),(7,3),(8,3),(8,4),(8,5),(8,6),(8,7)] rfl]
  norm_num [farthestBy, perpDistSq, rdpLL, rdpLR]

set_option maxHeartbeats 1000000 in
theorem rdpRL : rdpRat ((4 : ℚ)/25)
    [(8,8),(7,8),(6,8),(5,8),(4,8),(3,8)] = [(8,8),(3,8)] := by
  rw [rdpRat_eq_of ((4 : ℚ)/25) [(8,8),(7,8),(6,8),(5,8),(4,8),(3,8)]
    (by norm_num) (7,8) [(6,8),(5,8),(4,8)] rfl]
  norm_num [farthestBy, perpDistSq]

set_option maxHeartbeats 1000000 in
theorem rdpRR : rdpRat ((4 : ℚ)/25)
    [(3,8),(3,7),(3,6),(3,5),(3,4)] = [(3,8),(3,4)] := by
  rw [rdpRat_eq_of ((4 : ℚ)/25) [(3,8),(3,7),(3,6),(3,5),(3,4)]
    (by norm_num) (3,7) [(3,6),(3,5)] rfl]
  norm_num [farthestBy, perpDistSq]

set_option maxHeartbeats 1000000 in
theorem rdpR : rdpRat ((4 : ℚ)/25)
    [(8,8),(7,8),(6,8),(5,8),(4,8),(3,8),(3,7),(3,6),(3,5),(3,4)]
    = [(8,8),(3,8),(3,4)] := by
  rw [rdpRat_eq_of ((4 : ℚ)/25)
    [(8,8),(7,8),(6,8),(5,8),(4,8),(3,8),(3,7),(3,6),(3,5),(3,4)]
    (by norm_num) (7,8) [(6,8),(5,8),(4,8),(3,8),(3,7),(3,6),(3,5)] rfl]
  norm_num [farthestBy, perpDistSq, rdpRL, rdpRR]

set_option maxHeartbeats 2000000 in
theorem rdpRoot : rdpRat ((4 : ℚ)/25) pts12 = [(3,3),(8,3),(8,8),(3,8),(3,4)] := by
  rw [show pts12 = [(3,3),(4,3),(5,3),(6,3),(7,3),(8,3),(8,4),(8,5),(8,6),(8,7),
    (8,8),(7,8),(6,8),(5,8),(4,8),(3,8),(3,7),(3,6),(3,5),(3,4)] from rfl]
  rw [rdpRat_eq_of ((4 : ℚ)/25)
    [(3,3),(4,3),(5,3),(6,3),(7,3),(8,3),(8,4),(8,5),(8,6),(8,7),
     (8,8),(7,8),(6,8),(5,8),(4,8),(3,8),(3,7),(3,6),(3,5),(3,4)]
    (by norm_num) (4,3)
    [(5,3),(6,3),(7,3),(8,3),(8,4),(8,5),(8,6),(8,7),(8,8),(7,8),(6,8),(5,8),
     (4,8),(3,8),(3,7),(3,6),(3,5)] rfl]
  norm_num [farthestBy, perpDistSq, rdpL, rdpR]

theorem rdp12 : ramerDouglasPeucker (toQ contour12) ((contour12.length : ℝ) * 0.02)
    = [(3,3),(8,3),(8,8),(3,8),(3,4)] := by
  have h1 : ((contour12.length : ℝ) * 0.02) = (((2/5 : ℚ)) : ℝ) := by
    norm_num [contour12]
  rw [h1, ramerDouglasPeucker_eq_rdpRat (2/5) (by norm_num), toQ12,
    show (2/5 : ℚ) * (2/5) = 4/25 by norm_num]
  exact rdpRoot

theorem ded12 : dedupVertices contour12 = 4 := by
  have hd : ptDist ((3:ℚ), (3:ℚ)) ((3:ℚ), (4:ℚ)) < 2 := by
    unfold ptDist
    rw [show (((3:ℚ) - 3) * ((3:ℚ) - 3) + ((3:ℚ) - 4) * ((3:ℚ) - 4)) = 1 by norm_num]
    rw [show (((1:ℚ)) : ℝ) = 1 by norm_num, Real.sqrt_one]
    norm_num
  unfold dedupVertices
  rw [rdp12]
  norm_num [List.headD, List.getLastD, hd]

theorem props12 : calculateShapeProperties pts12 = ⟨25, ⟨3, 3, 6, 6⟩, (6, 6)⟩ := by
  norm_num [pts12, calculateShapeProperties, shoelace, shoelaceGo]

theorem classify4 (x : ℝ) : classifyShape 4 x = some ShapeType.rectangle := by
  simp [classifyShape]

theorem proc12 : processContour contour12 = some shape12 := by
  unfold processContour
  rw [if_neg (by norm_num [contour12] : ¬ contour12.length < 10)]
  rw [ded12, classify4, toQ12, props12]
  simp [shape12]

theorem detect12 : detectShapes 300 img12 = some ⟨[shape12], 0, 12, 12⟩ := by
  unfold detectShapes
  rw [collect12]
  simp only [Option.map_some']
  simp [List.filterMap, proc12, img12]

/-! ## C7: the tracer on an all-foreground raster -/

set_option maxRecDepth 10000 in
theorem binarize10 : binarize img10 = m10 := by decide

theorem fgAt_shift (p : PosZ) : fgAt m10 10 (p.1 + 10, p.2 - 1) = fgAt m10 10 p := by
  unfold fgAt
  dsimp only
  have h : (p.2 - 1) * 10 + (p.1 + 10) = p.2 * 10 + p.1 := by ring
  rw [h]

theorem neighborsRing_shift (c1 c2 : ℤ) :
    neighborsRing (c1 + 10, c2 - 1)
      = (neighborsRing (c1, c2)).map (fun p => (p.1 + 10, p.2 - 1)) := by
  simp [neighborsRing, Prod.ext_iff]
  omega

theorem beq_shift (a1 a2 b1 b2 : ℤ) :
    (((a1 + 10, a2 - 1) : PosZ) == (b1 + 10, b2 - 1)) = (((a1, a2) : PosZ) == (b1, b2)) := by
  rw [Bool.eq_iff_iff]
  simp only [beq_iff_eq, Prod.ext_iff]
  constructor <;> intro h <;> omega

theorem findIdxOpt_map {α β : Type} (p : β → Bool) (g : α → β) :
    ∀ l : List α, (l.map g).findIdx? p = l.findIdx? (fun a => p (g a)) := by
  intro l
  induction l with
  | nil => rfl
  | cons a l ih => simp [List.findIdx?_cons, ih]

theorem scanRing_shift (ns : List PosZ) (hlen : ns.length = 8) :
    ∀ (k i : ℕ), i < 8 →
      scanRing m10 10 (ns.map (fun p => (p.1 + 10, p.2 - 1))) i k
        = Option.map (fun p => (p.1 + 10, p.2 - 1)) (scanRing m10 10 ns i k) := by
  intro k
  induction k with
  | zero => intro i _; rfl
  | succ k ih =>
    intro i hi
    simp only [scanRing]
    have hget : (ns.map (fun p => (p.1 + 10, p.2 - 1))).getD i ((0 : ℤ), (0 : ℤ))
        = ((ns.getD i ((0 : ℤ), (0 : ℤ))).1 + 10, (ns.getD i ((0 : ℤ), (0 : ℤ))).2 - 1) := by
      rw [List.getD_eq_getElem?_getD, List.getD_eq_getElem?_getD, List.getElem?_map,
        List.getElem?_eq_getElem (by omega)]
      simp
    rw [hget, fgAt_shift (ns.getD i ((0 : ℤ), (0 : ℤ)))]
    by_cases hf : fgAt m10 10 (ns.getD i ((0 : ℤ), (0 : ℤ))) = true
    · rw [if_pos hf, if_pos hf]
      rfl
    · rw [if_neg hf, if_neg hf]
      exact ih ((i + 1) % 8) (Nat.mod_lt _ (by norm_num))

theorem findNext_shift (c1 c2 f1 f2 : ℤ) :
    findNext m10 10 (c1 + 10, c2 - 1) (f1 + 10, f2 - 1)
      = Option.map (fun p => (p.1 + 10, p.2 - 1)) (findNext m10 10 (c1, c2) (f1, f2)) := by
  have hpred : (fun a : PosZ => (((fun p : PosZ => (p.1 + 10, p.2 - 1)) a) == (f1 + 10, f2 - 1)))
      = (fun a : PosZ => (a == ((f1, f2) : PosZ))) := by
    funext a
    show (((a.1 + 10, a.2 - 1) : PosZ) == (f1 + 10, f2 - 1)) = (a == ((f1, f2) : PosZ))
    simpa using beq_shift a.1 a.2 f1 f2
  have hlt : ∀ fi : ℤ, ((fi + 1) % 8).toNat < 8 := by
    intro fi
    have h1 : (0 : ℤ) ≤ (fi + 1) % 8 := Int.emod_nonneg _ (by norm_num)
    have h2 : (fi + 1) % 8 < 8 := Int.emod_lt_of_pos _ (by norm_num)
    omega
  unfold findNext
  dsimp only
  rw [neighborsRing_shift, findIdxOpt_map, hpred]
  exact scanRing_shift (neighborsRing (c1, c2)) (by simp [neighborsRing]) 8 _ (hlt _)

theorem findNext_shift_iter (m : ℕ) (c1 c2 f1 f2 : ℤ) :
    findNext m10 10 (c1 + 10 * (m : ℤ), c2 - (m : ℤ)) (f1 + 10 * (m : ℤ), f2 - (m : ℤ))
      = Option.map (fun p : PosZ => (p.1 + 10 * (m : ℤ), p.2 - (m : ℤ)))
          (findNext m10 10 (c1, c2) (f1, f2)) := by
  induction m with
  | zero =>
    simp only [Nat.cast_zero, mul_zero, add_zero, sub_zero]
    cases findNext m10 10 (c1, c2) (f1, f2) <;> simp
  | succ m ih =>
    have e1 : c1 + 10 * ((m + 1 : ℕ) : ℤ) = (c1 + 10 * (m : ℤ)) + 10 := by push_cast; ring
    have e2 : c2 - ((m + 1 : ℕ) : ℤ) = (c2 - (m : ℤ)) - 1 := by push_cast; ring
    have e3 : f1 + 10 * ((m + 1 : ℕ) : ℤ) = (f1 + 10 * (m : ℤ)) + 10 := by push_cast; ring
    have e4 : f2 - ((m + 1 : ℕ) : ℤ) = (f2 - (m : ℤ)) - 1 := by push_cast; ring
    rw [e1, e2, e3, e4, findNext_shift, ih, Option.map_map]
    cases findNext m10 10 (c1, c2) (f1, f2) with
    | none => rfl
    | some p =>
      simp only [Option.map_some', Function.comp, Option.some.injEq, Prod.ext_iff]
      constructor <;> push_cast <;> ring

theorem baseOK_true : baseOK = true := by decide

theorem shiftSt_zero (b : PosZ × PosZ) : shiftSt 0 b = b := by
  simp [shiftSt, shiftP]

theorem shiftSt_succ (m : ℕ) (b : PosZ × PosZ) : shiftSt m (shiftSt 1 b) = shiftSt (m + 1) b := by
  simp only [shiftSt, shiftP, Prod.ext_iff]
  constructor
  · constructor <;> push_cast <;> ring
  · constructor <;> push_cast <;> ring

theorem goodState_step (s : PosZ × PosZ) (hs : goodState s) :
    ∃ n, findNext m10 10 s.1 s.2 = some n ∧ n ≠ ((0 : ℤ), (0 : ℤ)) ∧ goodState (n, s.1) := by
  obtain ⟨m, b, hb, rfl⟩ := hs
  have hball := List.all_eq_true.mp baseOK_true b hb
  rcases hfn : findNext m10 10 b.1 b.2 with _ | n0
  · rw [hfn] at hball
    exact absurd hball (by simp)
  · rw [hfn] at hball
    simp only [Bool.and_eq_true, Bool.or_eq_true, decide_eq_true_eq, List.any_eq_true] at hball
    obtain ⟨hsign, hnextmem⟩ := hball
    have hshift : findNext m10 10 (shiftSt m b).1 (shiftSt m b).2
        = some (shiftP m n0) := by
      show findNext m10 10 (b.1.1 + 10 * (m : ℤ), b.1.2 - (m : ℤ))
          (b.2.1 + 10 * (m : ℤ), b.2.2 - (m : ℤ)) = some (shiftP m n0)
      rw [findNext_shift_iter]
      rw [show ((b.1.1, b.1.2) : PosZ) = b.1 from rfl, show ((b.2.1, b.2.2) : PosZ) = b.2 from rfl]
      rw [hfn]
      rfl
    refine ⟨shiftP m n0, hshift, ?_, ?_⟩
    · intro hc
      rw [Prod.ext_iff] at hc
      simp only [shiftP] at hc
      rcases hsign with ⟨h1, h2⟩ | h1 <;> omega
    · rcases hnextmem with hmem | ⟨b3, hb3, heq⟩
      · exact ⟨m, (n0, b.1), hmem, rfl⟩
      · refine ⟨m + 1, b3, hb3, ?_⟩
        rw [← shiftSt_succ m b3, ← heq]
        rfl

theorem traceLoop_succ (m : List ℕ) (w : ℤ) (start : PosZ) (F : ℕ) (cur frm : PosZ)
    (acc : List PosZ) :
    traceLoop m w start (F + 1) cur frm acc =
      match findNext m w cur frm with
      | none => some acc.reverse
      | some nxt =>
        if nxt = start then some acc.reverse
        else traceLoop m w start F nxt cur (nxt :: acc) := rfl

theorem traceLoop_none (F : ℕ) : ∀ (cur frm : PosZ) (acc : List PosZ),
    goodState (cur, frm) →
      traceLoop m10 10 ((0 : ℤ), (0 : ℤ)) F cur frm acc = none := by
  induction F with
  | zero => intro cur frm acc _; rfl
  | succ F ih =>
    intro cur frm acc hgood
    obtain ⟨n, hn, hne, hgood2⟩ := goodState_step (cur, frm) hgood
    rw [traceLoop_succ, hn]
    show (if n = ((0 : ℤ), (0 : ℤ)) then some acc.reverse
      else traceLoop m10 10 ((0 : ℤ), (0 : ℤ)) F n cur (n :: acc)) = none
    rw [if_neg hne]
    exact ih n cur (n :: acc) hgood2

theorem scanGo_succ (img : Raster) (F i rem : ℕ) (m : List ℕ) (acc : List (List PosZ)) :
    scanGo img F i (rem + 1) m acc =
      (if m.getD i 1 = 0 then
        match traceLoop m (img.width : ℤ) (((i % img.width : ℕ) : ℤ), ((i / img.width : ℕ) : ℤ)) F
            (((i % img.width : ℕ) : ℤ), ((i / img.width : ℕ) : ℤ))
            ((((i % img.width : ℕ) : ℤ)) - 1, ((i / img.width : ℕ) : ℤ))
            [(((i % img.width : ℕ) : ℤ), ((i / img.width : ℕ) : ℤ))] with
        | none => none
        | some contour =>
          match floodFill img.width img.height F
              [(((i % img.width : ℕ) : ℤ), ((i / img.width : ℕ) : ℤ))] (m.set i 1) with
          | none => none
          | some m2 => scanGo img F (i + 1) rem m2 (contour :: acc)
      else scanGo img F (i + 1) rem m acc) := rfl

theorem scanGo_none_of_trace (img : Raster) (F i rem : ℕ) (m : List ℕ)
    (acc : List (List PosZ)) (hfg : m.getD i 1 = 0)
    (htr : traceLoop m (img.width : ℤ)
        (((i % img.width : ℕ) : ℤ), ((i / img.width : ℕ) : ℤ)) F
        (((i % img.width : ℕ) : ℤ), ((i / img.width : ℕ) : ℤ))
        ((((i % img.width : ℕ) : ℤ)) - 1, ((i / img.width : ℕ) : ℤ))
        [(((i % img.width : ℕ) : ℤ), ((i / img.width : ℕ) : ℤ))] = none) :
    scanGo img F i (rem + 1) m acc = none := by
  rw [scanGo_succ, if_pos hfg, htr]

/-- On the all-foreground 10-by-10 raster the boundary walk seeded at `(0, 0)`
never terminates: the contour-collection phase exhausts any fuel. -/
theorem collectContours_img10 (F : ℕ) : collectContours F img10 = none := by
  have hmem : ((((0 : ℤ), (0 : ℤ)), ((-1 : ℤ), (0 : ℤ))) : PosZ × PosZ) ∈ baseStates := by
    decide
  have hinit : goodState (((0 : ℤ), (0 : ℤ)), ((-1 : ℤ), (0 : ℤ))) :=
    ⟨0, _, hmem, (shiftSt_zero _).symm⟩
  show scanGo img10 F 0 (img10.width * img10.height) (binarize img10) [] = none
  rw [binarize10, show img10.width * img10.height = 99 + 1 from rfl]
  apply scanGo_none_of_trace
  · decide
  · exact traceLoop_none F _ _ _ hinit

/-! ## Helper lemmas for the claim theorems -/

theorem getD_replicate (n j a d : ℕ) (hj : j < n) : (List.replicate n a).getD j d = a := by
  rw [List.getD_eq_getElem?_getD, List.getElem?_eq_getElem (by simpa using hj)]
  simp

/-- Every shape assembled by `detectShapes` carries the constant confidence `1`. -/
theorem confidence_eq_one_of_detect (img : Raster) (F : ℕ) (res : DetectionResult)
    (hres : detectShapes F img = some res) : ∀ s ∈ res.shapes, s.confidence = 1 := by
  intro s hs
  unfold detectShapes at hres
  rcases hcc : collectContours F img with _ | cs
  · rw [hcc] at hres
    exact absurd hres (by simp)
  · rw [hcc] at hres
    simp only [Option.map_some', Option.some.injEq] at hres
    rw [← hres] at hs
    simp only [List.mem_filterMap] at hs
    obtain ⟨c, _, hc⟩ := hs
    unfold processContour at hc
    by_cases hlen : c.length < 10
    · rw [if_pos hlen] at hc
      exact absurd hc (by simp)
    · rw [if_neg hlen] at hc
      rcases hcl : classifyShape (dedupVertices c) (circularityOf c) with _ | t
      · rw [hcl] at hc
        exact absurd hc (by simp)
      · rw [hcl] at hc
        simp only [Option.some.injEq] at hc
        rw [← hc]

/-- The rectangle scorer can never return more than `0.9`: the base confidence is
`0.9` or `0.5` and every adjustment only lowers it (or caps it at `0.95`, above
which it never starts). -/
theorem calculateConfidence_rectangle_le (v : ℕ) (c : ℝ) (len : ℕ) (bb : Bbox) :
    calculateConfidence ShapeType.rectangle v c len bb ≤ 0.9 := by
  unfold calculateConfidence calculateRectangleConfidence
  have hclamp : ∀ X : ℝ, X ≤ 0.9 → max 0 (min 1 X) ≤ 0.9 := fun X h =>
    max_le (by norm_num) (le_trans (min_le_right _ _) h)
  apply hclamp
  split_ifs <;> norm_num [min_def]

/-! ## Claim theorems -/

/-- Claim C1 (corrected): `detectShapes` does NOT fill `confidence` with the
Confidence Scorer's output; it writes the constant `1.0` and never invokes
`calculateConfidence` (whose rectangle score is always strictly below `1`, so the
two disagree on every emitted rectangle). -/
theorem detectShapes_confidence_not_scorer :
    (∀ (img : Raster) (F : ℕ) (res : DetectionResult), detectShapes F img = some res →
      ∀ s ∈ res.shapes, s.confidence = 1) ∧
    ∀ (v : ℕ) (c : ℝ) (len : ℕ) (bb : Bbox),
      calculateConfidence ShapeType.rectangle v c len bb < 1 :=
  ⟨confidence_eq_one_of_detect, fun v c len bb =>
    lt_of_le_of_lt (calculateConfidence_rectangle_le v c len bb) (by norm_num)⟩

/-- Claim C1, witness: the constant-confidence fact instantiated at the concrete
square raster `img12`, and the scorer bound at concrete arguments. -/
theorem detectShapes_confidence_not_scorer_witness :
    shape12.confidence = 1 ∧
      calculateConfidence ShapeType.rectangle 4 0.5 20 ⟨3, 3, 6, 6⟩ < 1 :=
  ⟨detectShapes_confidence_not_scorer.1 img12 300 ⟨[shape12], 0, 12, 12⟩ detect12 shape12
      (by simp),
    detectShapes_confidence_not_scorer.2 4 0.5 20 ⟨3, 3, 6, 6⟩⟩

/-- Claim C1, counterexample to the claim as stated: on the 12-by-12 square raster
the pipeline emits one rectangle with confidence `1.0`, but the Confidence Scorer
applied to exactly that shape's classified type, de-duplicated vertex count,
circularity, raw contour length and bounding box returns a value different from
`1.0` (it is at most `0.9`). -/
theorem detectShapes_img12_scorer_cex :
    collectContours 300 img12 = some [contour12] ∧
    detectShapes 300 img12 = some ⟨[shape12], 0, 12, 12⟩ ∧
    contour12.length = 20 ∧
    dedupVertices contour12 = 4 ∧
    shape12.type = ShapeType.rectangle ∧
    shape12.confidence = 1 ∧
    calculateConfidence shape12.type (dedupVertices contour12) (circularityOf contour12)
        contour12.length shape12.boundingBox ≠ 1 :=
  ⟨collect12, detect12, by decide, ded12, rfl, rfl,
    ne_of_lt (lt_of_le_of_lt (calculateConfidence_rectangle_le _ _ _ _) (by norm_num))⟩

/-- Claim C2 (confirmed): every `DetectedShape` returned by `detectShapes` has
confidence exactly `1.0`; the per-type scoring functions play no role in the
detection pipeline. -/
theorem detectShapes_confidence_one (img : Raster) (F : ℕ) (res : DetectionResult)
    (hres : detectShapes F img = some res) : ∀ s ∈ res.shapes, s.confidence = 1 :=
  confidence_eq_one_of_detect img F res hres

/-- Claim C2, witness: the concrete run on `img12` emits `shape12` and its
confidence is `1`. -/
theorem detectShapes_confidence_one_witness : shape12.confidence = 1 :=
  detectShapes_confidence_one img12 300 ⟨[shape12], 0, 12, 12⟩ detect12 shape12 (by simp)

/-- Claim C3 (corrected): the source classifier is vertex-count-first, not
circularity-first; the circularity gate only decides once the vertex count is at
least 6 (for vertex counts 3, 4, 5 the vertex rules win regardless of circularity,
and below 3 the gate threshold is `0.8`).  Amended statement: for every vertex
count at least 6 and circularity above `0.75` the classifier returns circle. -/
theorem classifyShape_circle_gate_amended (v : ℕ) (c : ℝ) (hv : 6 ≤ v) (hc : 0.75 < c) :
    classifyShape v c = some ShapeType.circle := by
  unfold classifyShape
  split_ifs <;> first | rfl | omega | linarith

/-- Claim C3, witness: the amended gate at vertex count 7 and circularity `0.8`. -/
theorem classifyShape_circle_gate_amended_witness :
    (6 : ℕ) ≤ 7 ∧ (0.75 : ℝ) < 0.8 ∧ classifyShape 7 0.8 = some ShapeType.circle :=
  ⟨by norm_num, by norm_num, classifyShape_circle_gate_amended 7 0.8 (by norm_num) (by norm_num)⟩

/-- Claim C3, counterexample to the claim as stated: vertex count 3 with
circularity `0.8 > 0.75` is classified triangle, not circle -- the vertex-count
rule has priority over the circularity gate. -/
theorem classifyShape_circle_gate_cex :
    (0.75 : ℝ) < 0.8 ∧ classifyShape 3 0.8 = some ShapeType.triangle ∧
      ShapeType.triangle ≠ ShapeType.circle := by
  refine ⟨by norm_num, ?_, by decide⟩
  simp [classifyShape]

/-- Claim C4 (corrected): in the 10-12 vertex band the star/circle split is at
circularity `0.7`, not at the `0.75` circle gate.  Amended statement: for
`10 ≤ vertexCount ≤ 12` and `0 ≤ circularity < 0.7` the classifier returns star. -/
theorem classifyShape_star_band_amended (v : ℕ) (c : ℝ) (h10 : 10 ≤ v) (h12 : v ≤ 12)
    (hc0 : 0 ≤ c) (hc : c < 0.7) : classifyShape v c = some ShapeType.star := by
  unfold classifyShape
  split_ifs <;> first | rfl | omega | linarith

/-- Claim C4, witness: the amended band at vertex count 11 and circularity `1/2`. -/
theorem classifyShape_star_band_amended_witness :
    (10 : ℕ) ≤ 11 ∧ (11 : ℕ) ≤ 12 ∧ (0 : ℝ) ≤ 1/2 ∧ (1/2 : ℝ) < 0.7 ∧
      classifyShape 11 (1/2) = some ShapeType.star :=
  ⟨by norm_num, by norm_num, by norm_num, by norm_num,
    classifyShape_star_band_amended 11 (1/2) (by norm_num) (by norm_num) (by norm_num)
      (by norm_num)⟩

/-- Claim C4, counterexample to the claim as stated: vertex count 10 with
circularity `0.72 ≤ 0.75` is classified circle, because the band's internal
threshold `circularity < 0.7` fails. -/
theorem classifyShape_star_band_cex :
    ((0 : ℝ) ≤ 0.72 ∧ (0.72 : ℝ) ≤ 0.75) ∧
      classifyShape 10 0.72 = some ShapeType.circle ∧ ShapeType.circle ≠ ShapeType.star := by
  refine ⟨⟨by norm_num, by norm_num⟩, ?_, by decide⟩
  norm_num [classifyShape]

/-- Claim C5 (confirmed): a 3-vertex simplified contour is always classified
triangle for any circularity below the `0.75` gate (in fact for any circularity:
the vertex rule fires first). -/
theorem classifyShape_three_triangle (c : ℝ) (hc0 : 0 ≤ c) (hc : c < 0.75) :
    classifyShape 3 c = some ShapeType.triangle := by
  simp [classifyShape]

/-- Claim C5, witness: vertex count 3 at circularity `1/2`. -/
theorem classifyShape_three_triangle_witness :
    (0 : ℝ) ≤ 1/2 ∧ (1/2 : ℝ) < 0.75 ∧ classifyShape 3 (1/2) = some ShapeType.triangle :=
  ⟨by norm_num, by norm_num, classifyShape_three_triangle (1/2) (by norm_num) (by norm_num)⟩

/-- Claim C6 (confirmed): a successful `detectShapes` run emits exactly the
filter-map of `processContour` over the traced contours, and `processContour`
produces a shape if and only if the raw contour has at least 10 points and the
classifier returns a type for its de-duplicated vertex count and circularity;
contours failing either condition yield no shape and no error. -/
theorem detectShapes_emit_iff (img : Raster) (F : ℕ) (res : DetectionResult)
    (hres : detectShapes F img = some res) :
    ∃ cs : List (List PosZ), collectContours F img = some cs ∧
      res.shapes = cs.filterMap processContour ∧
      ∀ c : List PosZ, (processContour c).isSome ↔
        (10 ≤ c.length ∧ (classifyShape (dedupVertices c) (circularityOf c)).isSome) := by
  unfold detectShapes at hres
  rcases hcc : collectContours F img with _ | cs
  · rw [hcc] at hres
    exact absurd hres (by simp)
  · rw [hcc] at hres
    simp only [Option.map_some', Option.some.injEq] at hres
    refine ⟨cs, rfl, by rw [← hres], ?_⟩
    intro c
    unfold processContour
    by_cases hlen : c.length < 10
    · rw [if_pos hlen]
      simp only [Option.isSome_none, Bool.false_eq_true, false_iff, not_and]
      intro hcon
      omega
    · rw [if_neg hlen]
      rcases hcl : classifyShape (dedupVertices c) (circularityOf c) with _ | t
      · simp [hcl]
      · simp [hcl]
        omega

/-- Claim C6, witness: the characterization instantiated on the concrete square
raster run. -/
theorem detectShapes_emit_iff_witness :
    ∃ cs : List (List PosZ), collectContours 300 img12 = some cs ∧
      (⟨[shape12], 0, 12, 12⟩ : DetectionResult).shapes = cs.filterMap processContour ∧
      ∀ c : List PosZ, (processContour c).isSome ↔
        (10 ≤ c.length ∧ (classifyShape (dedupVertices c) (circularityOf c)).isSome) :=
  detectShapes_emit_iff img12 300 ⟨[shape12], 0, 12, 12⟩ detect12

/-- Claim C7 (code bug): on a 10-by-10 raster whose pixels are all foreground
(every byte of the buffer, in particular every red sample, is `0 < 127`), the
spec requires `detectShapes` to terminate with zero contours; instead the Moore
walk escapes the grid through linear-index aliasing (pixel `(10, -1)` reads index
`0`), never returns to its start, and `detectShapes` exhausts every fuel bound. -/
theorem detectShapes_img10_diverges :
    (∀ j : ℕ, j < img10.data.length → img10.data.getD j 0 < 127) ∧
    img10.width = 10 ∧ img10.height = 10 ∧
    ∀ F : ℕ, detectShapes F img10 = none := by
  refine ⟨?_, rfl, rfl, ?_⟩
  · intro j hj
    have hlen : img10.data.length = 400 := by
      rw [show img10.data = List.replicate 400 0 from rfl, List.length_replicate]
    rw [show img10.data = List.replicate 400 0 from rfl,
      getD_replicate 400 j 0 0 (by omega)]
    norm_num
  · intro F
    unfold detectShapes
    rw [collectContours_img10]
    rfl

/-- Claim C8 (confirmed): the binary map has one cell per pixel of the raster,
and -- for a well-formed RGBA buffer -- marks pixel `(x, y)` foreground (cell value
`0`) exactly when its red byte `data[4*(y*width+x)]` is strictly below `127`;
every other pixel is background (cell value `1`). -/
theorem binarize_spec (img : Raster)
    (hdata : img.data.length = 4 * (img.width * img.height)) :
    (binarize img).length = img.width * img.height ∧
    ∀ x y : ℕ, x < img.width → y < img.height →
      ((binarize img).getD (y * img.width + x) 1 = 0 ↔
        img.data.getD (4 * (y * img.width + x)) 0 < 127) := by
  constructor
  · simp [binarize]
  · intro x y hx hy
    have hj : y * img.width + x < img.width * img.height := by
      calc y * img.width + x < y * img.width + img.width := by omega
        _ = (y + 1) * img.width := by ring
        _ ≤ img.height * img.width := Nat.mul_le_mul_right _ (by omega)
        _ = img.width * img.height := Nat.mul_comm _ _
    have hb : (binarize img).getD (y * img.width + x) 1
        = if 4 * (y * img.width + x) < img.data.length then
            (if img.data.getD (4 * (y * img.width + x)) 0 < 127 then 0 else 1) else 0 := by
      unfold binarize
      rw [List.getD_eq_getElem?_getD, List.getElem?_map, List.getElem?_range hj]
      simp
    rw [hb, if_pos (by omega)]
    constructor
    · intro h
      by_contra hred
      rw [if_neg hred] at h
      exact one_ne_zero h
    · intro h
      rw [if_pos h]

/-- Claim C8, witness: the characterization instantiated on the concrete square
raster `img12` (whose buffer is well-formed). -/
theorem binarize_spec_witness :
    (binarize img12).length = img12.width * img12.height ∧
    ∀ x y : ℕ, x < img12.width → y < img12.height →
      ((binarize img12).getD (y * img12.width + x) 1 = 0 ↔
        img12.data.getD (4 * (y * img12.width + x)) 0 < 127) :=
  binarize_spec img12 (by set_option maxRecDepth 10000 in decide)

/-- Claim C9 (confirmed): on the 4-pixel-wide square contour
`[(0,0), (4,0), (4,4), (0,4)]` the property extractor returns shoelace area `16`,
the inclusive-pixel bounding box `{x := 0, y := 0, width := 5, height := 5}`, and
the bounding-box center `(5/2, 5/2)` (that is, `(2.5, 2.5)`). -/
theorem calculateShapeProperties_square :
    calculateShapeProperties [((0 : ℚ), (0 : ℚ)), (4, 0), (4, 4), (0, 4)] =
      ⟨16, ⟨0, 0, 5, 5⟩, (5/2, 5/2)⟩ := by
  norm_num [calculateShapeProperties, shoelace, shoelaceGo]

/-- Claim C10 (confirmed): for every shape type, vertex count, nonnegative
circularity, contour length and bounding box of strictly positive width and
height, the confidence scorer's result lies in the closed interval `[0, 1]` (the
final clamp guarantees it). -/
theorem calculateConfidence_clamped (t : ShapeType) (v : ℕ) (c : ℝ) (len : ℕ) (bb : Bbox)
    (hc : 0 ≤ c) (hw : 0 < bb.width) (hh : 0 < bb.height) :
    0 ≤ calculateConfidence t v c len bb ∧ calculateConfidence t v c len bb ≤ 1 := by
  unfold calculateConfidence
  exact ⟨le_max_left _ _, max_le (by norm_num) (min_le_left _ _)⟩

/-- Claim C10, witness: the clamp bound at concrete arguments. -/
theorem calculateConfidence_clamped_witness :
    0 ≤ calculateConfidence ShapeType.circle 16 0.9 100 ⟨0, 0, 5, 5⟩ ∧
      calculateConfidence ShapeType.circle 16 0.9 100 ⟨0, 0, 5, 5⟩ ≤ 1 :=
  calculateConfidence_clamped ShapeType.circle 16 0.9 100 ⟨0, 0, 5, 5⟩ (by norm_num)
    (by norm_num) (by norm_num)
